import Mathlib

/-!
Verification development for the math_bot Telegram front end (`src/math_bot/tg.py`).

The file shallowly embeds the report-lifecycle state machine, the per-chat
next-step (continuation) registry, and the input-validation dialogues of
`tg.py` as executable Lean definitions, and proves or refutes the spec's
testable properties about them.  Collaborator modules that are not part of
the repository source tree (`models.py`, `config.py`, the rings and matrix
packages, and the telebot step-handler registry) are modelled from the spec,
as noted by their doc comments.
-/

namespace MathBot

/-- Report status values, as stored in the `status` field
(`tg.py` compares against the string tokens NEW / ACCEPTED / REJECTED / CLOSED). -/
inductive Status
  | NEW
  | ACCEPTED
  | REJECTED
  | CLOSED
  deriving DecidableEq, Repr

/-- The mutable part of a `ReportRecord`: its `status` and its optional `link`. -/
structure Report where
  status : Status
  link : Option String
  deriving DecidableEq, Repr

/-- Modelled from the spec: `ReportRecord.change_status(db, id, action_token, link=None)`
(`models.py` is not in src).  The action token selects the new status; per the
data model, `link` is "set only once accepted" and "closing preserves the link
that was set at acceptance", so only the `accept_report` action writes the link
field. -/
def change_status (r : Report) (action : String) (link : Option String) : Report :=
  if action = "accept_report" then { status := Status.ACCEPTED, link := link }
  else if action = "reject_report" then { r with status := Status.REJECTED }
  else if action = "close_report" then { r with status := Status.CLOSED }
  else r

/-- The continuations that `tg.py` registers with `bot.register_next_step_handler`,
each carrying the arguments bound at registration time. -/
inductive Cont
  | matrix_input (action : String)
  | logic_output
  | ring_output (command : String)
  | inverse_input_element
  | inverse_output (modulo : Int)
  | factorize_output
  | euclid_output
  | calc_output
  | broadcast
  | report_handling
  | link_handling (id : Nat)
  deriving DecidableEq, Repr

/-- Every outbound chat message the embedded handlers can send, abstracted to its
identity and data payload (HTML decoration and float formatting are presentation
detail outside the embedded core). -/
inductive Out
  | provideLink
  | issueClosed
  | issueNotConfirmed
  | issueRejected
  | issueConfirmed
  | provideLinkAgain
  | linkConfirm (linkText : String)
  | listing (st : Status) (link : Option String)
  | inputDataError
  | limitationModulo (maxModulo : Int)
  | ringAnswer (title : String) (modulus : Int)
  | enterElement
  | inverseAnswer (value : Int)
  | noInverse (element : Int) (modulus : Int)
  | matrixRect
  | matrixNumeric
  | matrixLimit (maxMatrix : Nat)
  | broadcastPrompt
  deriving DecidableEq, Repr

/-! ### Python string primitives used by the handlers -/

/-- Characters treated as whitespace by Python `str.split()` / `str.strip()`
(space, tab, newline, carriage return, vertical tab, form feed). -/
def pyIsSpace (c : Char) : Bool :=
  c == ' ' || c == '\t' || c == '\n' || c == '\r' || c == Char.ofNat 11 || c == Char.ofNat 12

/-- Accumulator worker for `splitWS`. -/
def splitWSAux : List Char → List Char → List (List Char)
  | [], acc => if acc.isEmpty then [] else [acc.reverse]
  | c :: cs, acc =>
    if pyIsSpace c then
      if acc.isEmpty then splitWSAux cs []
      else acc.reverse :: splitWSAux cs []
    else splitWSAux cs (c :: acc)

/-- Python `text.split()` with no separator: split on runs of whitespace,
dropping empty tokens. -/
def splitWS (s : List Char) : List (List Char) := splitWSAux s []

/-- Accumulator worker for `splitNL`. -/
def splitNLAux : List Char → List Char → List (List Char)
  | [], acc => [acc.reverse]
  | c :: cs, acc =>
    if c = '\n' then acc.reverse :: splitNLAux cs []
    else splitNLAux cs (c :: acc)

/-- Python `text.split("\n")`: split at every newline, keeping empty pieces. -/
def splitNL (s : List Char) : List (List Char) := splitNLAux s []

/-- Python `text.strip()`. -/
def pyStrip (s : List Char) : List Char :=
  ((s.dropWhile pyIsSpace).reverse.dropWhile pyIsSpace).reverse

/-- Decimal value of a digit string. -/
def digitsVal (s : List Char) : Nat :=
  s.foldl (fun a c => a * 10 + (c.toNat - 48)) 0

/-- Models Python `int(text)` on an already-stripped string: an optional sign
followed by a nonempty digit string; anything else raises ValueError (`none`
here).  Underscore digit separators are not modelled. -/
def parseIntL (s : List Char) : Option Int :=
  match s with
  | '+' :: t => if t ≠ [] ∧ t.all Char.isDigit then some (Int.ofNat (digitsVal t)) else none
  | '-' :: t => if t ≠ [] ∧ t.all Char.isDigit then some (-(Int.ofNat (digitsVal t))) else none
  | t => if t ≠ [] ∧ t.all Char.isDigit then some (Int.ofNat (digitsVal t)) else none

/-! ### Conversation step registry

Modelled from the spec (section 4.1): the registry behind telebot's
`register_next_step_handler` / `clear_step_handler_by_chat_id` is not part of
src, so its contract — at most one pending continuation per chat, registration
overwrites, dispatch removes the entry before invoking it, clearing removes it
without invoking — is taken from the spec's words. -/

/-- Modelled from the spec: `register(chat_id, continuation)` stores a continuation
for the chat, replacing any existing one. -/
def register (reg : Nat → Option Cont) (chatId : Nat) (k : Cont) : Nat → Option Cont :=
  fun c => if c = chatId then some k else reg c

/-- Modelled from the spec: `clear(chat_id)` removes any pending continuation
without invoking it. -/
def clear (reg : Nat → Option Cont) (chatId : Nat) : Nat → Option Cont :=
  fun c => if c = chatId then none else reg c

/-- Outcome of dispatching one inbound message: either a continuation was pulled
from the registry and invoked, or the message falls through to command lookup. -/
inductive Dispatched
  | invoked (k : Cont)
  | command
  deriving DecidableEq, Repr

/-- Modelled from the spec: `dispatch_incoming(chat_id, message)` removes the
chat's pending continuation from the registry before invoking it; with no
pending continuation the message is treated as a fresh command. -/
def dispatch_incoming (reg : Nat → Option Cont) (chatId : Nat) :
    (Nat → Option Cont) × Dispatched :=
  match reg chatId with
  | some k => (clear reg chatId, Dispatched.invoked k)
  | none => (reg, Dispatched.command)

/-- Embedding of `cancel_report` (tg.py 463-466): the Back button clears the chat's
pending continuation (`bot.clear_step_handler_by_chat_id`) without invoking it. -/
def cancel_report (reg : Nat → Option Cont) (chatId : Nat) : Nat → Option Cont :=
  clear reg chatId

/-! ### Ring-modulus dialogues (`/idempotents`, `/nilpotents`, `/inverse`) -/

/-- Embedding of `ring_output` (tg.py 255-286).  The rings collaborators
(`find_idempotents`, `find_nilpotents`) are opaque per the spec, so the success
reply is abstracted to the chosen title and the modulus. -/
def ring_output (maxModulo : Int) (text : String) (command : String) :
    List Out × Option Cont :=
  match parseIntL (pyStrip text.data) with
  | none => ([Out.inputDataError], none)
  | some n =>
    if n ≥ maxModulo ∨ n < 2 then ([Out.limitationModulo maxModulo], none)
    else if command = "idempotents" then ([Out.ringAnswer "Idempotents" n], none)
    else if command = "nilpotents" then ([Out.ringAnswer "Nilpotents" n], none)
    else ([], none)

/-- Embedding of `inverse_input_element` (tg.py 295-305): validate the ring modulus,
then prompt for the element and register `inverse_output` bound to the modulus. -/
def inverse_input_element (maxModulo : Int) (text : String) :
    List Out × Option Cont :=
  match parseIntL (pyStrip text.data) with
  | none => ([Out.inputDataError], none)
  | some n =>
    if n ≥ maxModulo ∨ n < 2 then ([Out.limitationModulo maxModulo], none)
    else ([Out.enterElement], some (Cont.inverse_output n))

/-- Modelled from the spec: `find_inverse(n, modulo)` (rings module, not in src)
returns the inverse element in Z/modulo, raising ArithmeticError (`none` here)
when no inverse exists. -/
def find_inverse (a m : Int) : Option Int :=
  ((List.range m.toNat).find? fun x => (a * (x : Int)) % m == 1).map fun x => (x : Int)

/-- Embedding of `inverse_output` (tg.py 308-326): parse the element, reduce it
modulo the ring modulus (`n = n % modulo`; Python `%` with a positive modulus
agrees with `Int.emod`), then attempt inversion. -/
def inverse_output (modulo : Int) (text : String) : List Out :=
  match parseIntL (pyStrip text.data) with
  | none => [Out.inputDataError]
  | some n0 =>
    let n := n0 % modulo
    match find_inverse n modulo with
    | none => [Out.noInverse n modulo]
    | some result => [Out.inverseAnswer result]

/-! ### Matrix dialogues (`/det`, `/ref`, `/m_inverse`) -/

/-- Recognizer for a nonempty all-digit string. -/
def digits1 (s : List Char) : Bool :=
  !s.isEmpty && s.all Char.isDigit

/-- Split a character list at the first character satisfying `p`, returning the
part before it and, when found, the part after it. -/
def breakAt (p : Char → Bool) : List Char → List Char × Option (List Char)
  | [] => ([], none)
  | c :: cs =>
    if p c then ([], some cs)
    else
      let r := breakAt p cs
      (c :: r.1, r.2)

/-- Optional sign followed by a nonempty digit string (the exponent part of a
Python float literal). -/
def signedDigits (s : List Char) : Bool :=
  match s with
  | '+' :: t => digits1 t
  | '-' :: t => digits1 t
  | t => digits1 t

/-- Mantissa of a Python float literal: digits, optionally with one decimal
point, with at least one digit overall. -/
def floatMantissa (s : List Char) : Bool :=
  match breakAt (fun c => c == '.') s with
  | (a, none) => digits1 a
  | (a, some b) => a.all Char.isDigit && b.all Char.isDigit && (!a.isEmpty || !b.isEmpty)

/-- Unsigned Python float literal: `inf`/`infinity`/`nan` (case-insensitive) or a
mantissa with an optional exponent. -/
def floatUnsigned (s : List Char) : Bool :=
  let lower := s.map Char.toLower
  if lower == "inf".data || lower == "infinity".data || lower == "nan".data then true
  else
    match breakAt (fun c => c == 'e' || c == 'E') s with
    | (m, none) => floatMantissa m
    | (m, some e) => floatMantissa m && signedDigits e

/-- Models Python `float(tok)` on a whitespace-free token: `true` exactly when the
call succeeds (underscore digit separators are not modelled). -/
def isFloatTok (s : List Char) : Bool :=
  match s with
  | '+' :: t => floatUnsigned t
  | '-' :: t => floatUnsigned t
  | t => floatUnsigned t

/-- Modelled from the spec: `Matrix.from_list` (matrix package, not in src) raises
`SizesMatchError` — "the matrix must be rectangular" — unless all rows have equal
length. -/
def rectangularOk (rows : List (List (List Char))) : Bool :=
  match rows with
  | [] => true
  | r :: rs => rs.all fun x => x.length == r.length

/-- The row/token split performed by the comprehension in `matrix_input`
(tg.py 197): `row.split()` applied to every piece of `text.split("\n")`. -/
def matrixRows (text : String) : List (List (List Char)) :=
  (splitNL text.data).map splitWS

/-- Embedding of `matrix_input` (tg.py 195-216).  The comprehension
`[[float(x) for x in row.split()] for row in text.split("\n")]` raises ValueError
at the first non-numeric token, before `Matrix.from_list` can raise
`SizesMatchError`, so the numeric check precedes the rectangularity check.
`matrix.n` is modelled from the spec as the row count, and the matrix is kept as
its token rows — the matrix actions (`det()`, `ref()`, `inverse()`) are opaque
collaborators per the spec. -/
def matrix_input (maxMatrix : Nat) (text : String) (action : String) :
    List Out × Option (String × List (List (List Char))) :=
  if (matrixRows text).all (fun r => r.all isFloatTok) then
    if rectangularOk (matrixRows text) then
      if (matrixRows text).length > maxMatrix then ([Out.matrixLimit maxMatrix], none)
      else ([], some (action, matrixRows text))
    else ([Out.matrixRect], none)
  else ([Out.matrixNumeric], none)

/-! ### Report workflow handlers -/

/-- The parts of a telebot callback query the embedded handlers read: the caller's
user id, the callback data token, and the text of the message carrying the
pressed button. -/
structure Call where
  fromUserId : Nat
  data : String
  msgText : String
  deriving DecidableEq, Repr

/-- Embedding of the link extraction inside `accept_link` (tg.py 523):
`call.message.text.split('\n')[1].split()[1]`.  Python raises IndexError on an
out-of-range index; that is modelled as the empty string (the handler only runs
on the two-line confirmation message built by `link_handling`). -/
def extract_linkL (msgText : List Char) : List Char :=
  (splitWS ((splitNL msgText).getD 1 [])).getD 1 []

/-- String version of `extract_linkL`. -/
def extract_link (msgText : String) : String :=
  String.mk (extract_linkL msgText.data)

/-- The text of the confirmation message built by `link_handling` (tg.py 514):
a first line asking whether the link is correct and a second line
`<b>Link:</b> ` followed by the admin's message text. -/
def confirm_textL (linkText : List Char) : List Char :=
  "<b>Is the link provided correct?</b>\n<b>Link:</b> ".data ++ linkText

/-- String version of `confirm_textL`. -/
def confirm_text (linkText : String) : String :=
  String.mk (confirm_textL linkText.data)

/-- Embedding of `link_handling` (tg.py 510-515): echo the supplied link back in a
confirmation message carrying Confirm (`accept_link id`) and Reject
(`reject_link id`) buttons; the report is not touched. -/
def link_handling (id : Nat) (linkText : String) : List Out × Option Cont :=
  ([Out.linkConfirm linkText], none)

/-- Embedding of `change_report_status` (tg.py 491-507), specialized to the single
report under review (the id pulled from the listing text addresses it).  The
handler reads only `call.data`: it never consults `Config.ADMINS` or
`call.from_user`.  `accept_report` merely prompts for a link and registers
`link_handling`; `close_report` is guarded on the current status being ACCEPTED;
`reject_report` mutates unconditionally. -/
def change_report_status (call : Call) (r : Report) :
    Report × List Out × Option Cont :=
  if call.data = "accept_report" then
    (r, [Out.provideLink], some (Cont.link_handling 0))
  else if call.data = "close_report" then
    if r.status = Status.ACCEPTED then
      (change_status r "close_report" none, [Out.issueClosed], none)
    else (r, [Out.issueNotConfirmed], none)
  else if call.data = "reject_report" then
    (change_status r "reject_report" none, [Out.issueRejected], none)
  else (r, [], none)

/-- Embedding of `accept_link` (tg.py 518-528): the Confirm button commits the
accept together with the link extracted from the confirmation message text; the
Reject button re-registers `link_handling` with the id parsed from the callback
data.  The handler performs no status check and no caller check. -/
def accept_link (call : Call) (r : Report) : Report × List Out × Option Cont :=
  let tokens := splitWS call.data.data
  if tokens.getD 0 [] = "accept_link".data then
    (change_status r "accept_report" (some (extract_link call.msgText)),
     [Out.issueConfirmed], none)
  else
    (r, [Out.provideLinkAgain],
     some (Cont.link_handling ((parseIntL (tokens.getD 1 [])).getD 0).toNat))

/-- Embedding of `broadcast_input` (tg.py 407-412): the only handler that gates on
`Config.ADMINS`; a non-admin caller is silently dropped (no reply, nothing
registered). -/
def broadcast_input (admins : List Nat) (fromUserId : Nat) : List Out × Option Cont :=
  if fromUserId ∈ admins then ([Out.broadcastPrompt], some Cont.broadcast)
  else ([], none)

/-- Embedding of `get_report_menu` (tg.py 60-65) as the list of callback data
tokens offered: the View-errors button is added only for admin ids. -/
def get_report_menu (admins : List Nat) (userId : Nat) : List String :=
  "report" :: (if userId ∈ admins then ["view_reports"] else [])

/-- Embedding of `get_type_report_menu` (tg.py 74-83) as the list of callback data
tokens offered: non-admin ids get an empty menu. -/
def get_type_report_menu (admins : List Nat) (userId : Nat) : List String :=
  if userId ∈ admins then
    ["report_status_NEW", "report_status_ACCEPTED", "report_status_REJECTED",
     "report_status_CLOSED", "back_button"]
  else []

/-- Embedding of `get_admin_menu` (tg.py 86-95) as the optional list of callback
data tokens attached to a listed report: buttons exist only for admin callers
viewing the NEW or ACCEPTED bucket, and the accept button only in the NEW
bucket; otherwise the function falls through and returns None. -/
def get_admin_menu (admins : List Nat) (userId : Nat) (data : String) :
    Option (List String) :=
  if ¬ (data = "report_status_CLOSED" ∨ data = "report_status_REJECTED") ∧
      userId ∈ admins then
    some ((if ¬ data = "report_status_ACCEPTED" then ["accept_report"] else []) ++
      ["reject_report", "close_report"])
  else none

/-! ### The report-review session as a transition system

One report under review, driven by updates from a single reviewing chat.  The
state records the report, the chat's pending continuation, the buttons still
attached to previously sent messages (telebot never removes them), and the
trace of sent messages.  Events are the inbound updates `tg.py` reacts to. -/

/-- State of the report-review session. -/
structure Sys where
  report : Report
  pending : Option Cont
  listed : List (Status × List String)
  confirms : List String
  sent : List Out
  deriving DecidableEq, Repr

/-- The callback data token `list_reports` is invoked with for a status bucket. -/
def statusToken : Status → String
  | Status.NEW => "report_status_NEW"
  | Status.ACCEPTED => "report_status_ACCEPTED"
  | Status.REJECTED => "report_status_REJECTED"
  | Status.CLOSED => "report_status_CLOSED"

/-- Inbound updates of the report-review session. -/
inductive Event
  | viewListing (bucket : Status)
  | pressListing (bucket : Status) (data : String)
  | sendText (text : String)
  | pressConfirm (linkText : String)
  | pressReject (linkText : String)
  deriving DecidableEq, Repr

/-- One update of the report-review session, processed as `tg.py` does, by the
user `uid` under administrator set `admins`.  `viewListing` runs `list_reports`
(no caller gate; the report shows up exactly when its status matches the bucket,
with the `get_admin_menu` buttons attached).  `pressListing` presses a button
that an outstanding listing message actually carries and runs
`change_report_status`.  `sendText` dispatches the chat's pending continuation,
removing it first.  `pressConfirm` / `pressReject` press a button on an
outstanding confirmation message and run `accept_link`.  Pressing a button that
no outstanding message carries is not an event of the system (`none`). -/
def stepSys (admins : List Nat) (uid : Nat) (s : Sys) (e : Event) : Option Sys :=
  match e with
  | Event.viewListing b =>
    if s.report.status = b then
      let mk := (get_admin_menu admins uid (statusToken b)).getD []
      some { s with
        listed := (b, mk) :: s.listed,
        sent := Out.listing s.report.status s.report.link :: s.sent }
    else some s
  | Event.pressListing b d =>
    if s.listed.any fun bm => bm.1 == b && bm.2.contains d then
      let out := change_report_status ⟨uid, d, "Report id: 0"⟩ s.report
      some { s with
        report := out.1,
        sent := out.2.1 ++ s.sent,
        pending := match out.2.2 with | some k => some k | none => s.pending }
    else none
  | Event.sendText t =>
    match s.pending with
    | some (Cont.link_handling id) =>
      let out := link_handling id t
      some { s with
        pending := out.2,
        confirms := t :: s.confirms,
        sent := out.1 ++ s.sent }
    | some _ => some { s with pending := none }
    | none => some s
  | Event.pressConfirm l =>
    if l ∈ s.confirms then
      let out := accept_link ⟨uid, "accept_link 0", confirm_text l⟩ s.report
      some { s with
        report := out.1,
        sent := out.2.1 ++ s.sent,
        pending := match out.2.2 with | some k => some k | none => s.pending }
    else none
  | Event.pressReject l =>
    if l ∈ s.confirms then
      let out := accept_link ⟨uid, "reject_link 0", confirm_text l⟩ s.report
      some { s with
        report := out.1,
        sent := out.2.1 ++ s.sent,
        pending := match out.2.2 with | some k => some k | none => s.pending }
    else none

/-- Session state right after a report is submitted: status NEW, no link, nothing
pending, no admin messages yet. -/
def sysInit : Sys :=
  { report := { status := Status.NEW, link := none },
    pending := none, listed := [], confirms := [], sent := [] }

/-- States of the report-review session reachable from a fresh report. -/
inductive ReachableSys (admins : List Nat) (uid : Nat) : Sys → Prop
  | init : ReachableSys admins uid sysInit
  | next {s t : Sys} (e : Event) :
      ReachableSys admins uid s → stepSys admins uid s e = some t →
      ReachableSys admins uid t

/-- The administrator set used by the concrete runs: user 0 is the admin. -/
def admins0 : List Nat := [0]

/-- Total version of `stepSys` for building concrete runs (invalid events keep the
state). -/
def step0 (s : Sys) (e : Event) : Sys :=
  (stepSys admins0 0 s e).getD s

/-- Run state: the admin opened the NEW bucket; the listing carries accept, reject
and close buttons. -/
def sys1 : Sys := step0 sysInit (Event.viewListing Status.NEW)

/-- Run state: the admin pressed accept; `link_handling` is registered. -/
def sys2 : Sys := step0 sys1 (Event.pressListing Status.NEW "accept_report")

/-- Run state: the admin sent the link text; the confirmation message is out. -/
def sys3 : Sys := step0 sys2 (Event.sendText "http://x/1")

/-- Run state: the admin confirmed; the report is ACCEPTED with its link set. -/
def sys4 : Sys := step0 sys3 (Event.pressConfirm "http://x/1")

/-- Run state: the admin opened the ACCEPTED bucket; that listing carries reject
and close buttons. -/
def sys5 : Sys := step0 sys4 (Event.viewListing Status.ACCEPTED)

/-- Run state: the admin pressed reject on the ACCEPTED listing; the report is now
REJECTED while its link is still set. -/
def sys6 : Sys := step0 sys5 (Event.pressListing Status.ACCEPTED "reject_report")

theorem reach1 : ReachableSys admins0 0 sys1 :=
  ReachableSys.next (Event.viewListing Status.NEW) ReachableSys.init (by decide)

theorem reach2 : ReachableSys admins0 0 sys2 :=
  ReachableSys.next (Event.pressListing Status.NEW "accept_report") reach1 (by decide)

theorem reach3 : ReachableSys admins0 0 sys3 :=
  ReachableSys.next (Event.sendText "http://x/1") reach2 (by decide)

theorem reach4 : ReachableSys admins0 0 sys4 :=
  ReachableSys.next (Event.pressConfirm "http://x/1") reach3 (by decide)

theorem reach5 : ReachableSys admins0 0 sys5 :=
  ReachableSys.next (Event.viewListing Status.ACCEPTED) reach4 (by decide)

theorem reach6 : ReachableSys admins0 0 sys6 :=
  ReachableSys.next (Event.pressListing Status.ACCEPTED "reject_report") reach5 (by decide)

/-! ### Claim theorems: step registry and numeric dialogues -/

/-- C5: for every chat, at most one pending continuation exists at any time:
registering a second continuation for the same chat overwrites the first, a
dispatched continuation is removed from the registry before it is invoked (so
a duplicate of the same inbound message cannot re-trigger it), and explicit
cancellation (`cancel_report`) clears the chat's pending continuation without
invoking it. -/
theorem step_registry_single_pending (reg : Nat → Option Cont) (chatId : Nat)
    (k k2 : Cont) :
    register (register reg chatId k) chatId k2 = register reg chatId k2 ∧
    (dispatch_incoming (register reg chatId k) chatId).2 = Dispatched.invoked k ∧
    (dispatch_incoming (register reg chatId k) chatId).1 chatId = none ∧
    (dispatch_incoming (dispatch_incoming (register reg chatId k) chatId).1 chatId).2 =
      Dispatched.command ∧
    cancel_report reg chatId chatId = none ∧
    (dispatch_incoming (cancel_report reg chatId) chatId).2 = Dispatched.command := by
  refine ⟨?_, ?_, ?_, ?_, ?_, ?_⟩
  · funext c
    by_cases h : c = chatId <;> simp [register, h]
  · simp [dispatch_incoming, register]
  · simp [dispatch_incoming, register, clear]
  · simp [dispatch_incoming, register, clear]
  · simp [cancel_report, clear]
  · simp [dispatch_incoming, cancel_report, clear]

/-- C7: in the `/idempotents`, `/nilpotents` and `/inverse` dialogues, a
modulus text that does not parse as an integer draws the generic input-data
error and the dialogue terminates with nothing registered; a parsed value
outside `2 ≤ n < MAX_MODULO` draws the specific limitation message naming that
bound and the dialogue terminates with no computation performed. -/
theorem modulus_validation (maxModulo : Int) (text command : String) :
    (parseIntL (pyStrip text.data) = none →
      ring_output maxModulo text command = ([Out.inputDataError], none) ∧
      inverse_input_element maxModulo text = ([Out.inputDataError], none)) ∧
    (∀ n : Int, parseIntL (pyStrip text.data) = some n → n < 2 ∨ n ≥ maxModulo →
      ring_output maxModulo text command = ([Out.limitationModulo maxModulo], none) ∧
      inverse_input_element maxModulo text = ([Out.limitationModulo maxModulo], none)) := by
  constructor
  · intro h
    constructor <;> simp [ring_output, inverse_input_element, h]
  · intro n h hr
    have hcond : n ≥ maxModulo ∨ n < 2 := hr.symm
    constructor <;> simp [ring_output, inverse_input_element, h, hcond]

/-- Witness for `modulus_validation`: the non-numeric text "abc" draws the
input-data error, and the out-of-range modulus 1 draws the limitation message,
in both the ring dialogue and the inverse dialogue. -/
theorem modulus_validation_witness :
    (ring_output 10000000 "abc" "idempotents" = ([Out.inputDataError], none) ∧
     inverse_input_element 10000000 "abc" = ([Out.inputDataError], none)) ∧
    (ring_output 10000000 "1" "idempotents" = ([Out.limitationModulo 10000000], none) ∧
     inverse_input_element 10000000 "1" = ([Out.limitationModulo 10000000], none)) :=
  ⟨(modulus_validation 10000000 "abc" "idempotents").1 (by decide),
   (modulus_validation 10000000 "1" "idempotents").2 1 (by decide) (by decide)⟩

/-- C10: the `/inverse` dialogue reduces the element modulo the ring modulus
before attempting inversion, so for a valid modulus two element inputs that are
congruent modulo it produce the same output. -/
theorem inverse_output_congruent (maxModulo m : Int) (t t2 : String) (e e2 : Int)
    (hm : 2 ≤ m) (hmax : m < maxModulo)
    (hp : parseIntL (pyStrip t.data) = some e)
    (hp2 : parseIntL (pyStrip t2.data) = some e2)
    (hc : e % m = e2 % m) :
    inverse_output m t = inverse_output m t2 := by
  simp [inverse_output, hp, hp2, hc]

/-- Witness for `inverse_output_congruent`: with modulus 5, the element inputs
"7" and "12" are congruent and yield the same output. -/
theorem inverse_output_congruent_witness :
    inverse_output 5 "7" = inverse_output 5 "12" :=
  inverse_output_congruent 10000000 5 "7" "12" 7 12 (by decide) (by decide)
    (by decide) (by decide) (by decide)

/-! ### String lemmas for the link extraction -/

theorem splitNLAux_no_newline (xs : List Char) (h : '\n' ∉ xs) (acc : List Char) :
    splitNLAux xs acc = [acc.reverse ++ xs] := by
  induction xs generalizing acc with
  | nil => simp [splitNLAux]
  | cons c cs ih =>
    have hc : ¬ c = '\n' := fun hh => h (hh ▸ List.mem_cons_self c cs)
    have hcs : '\n' ∉ cs := fun hm => h (List.mem_cons_of_mem c hm)
    simp [splitNLAux, hc, ih hcs, List.reverse_cons, List.append_assoc]

theorem splitNL_no_newline (xs : List Char) (h : '\n' ∉ xs) : splitNL xs = [xs] := by
  simpa [splitNL] using splitNLAux_no_newline xs h []

theorem splitNLAux_append (xs ys : List Char) (h : '\n' ∉ xs) (acc : List Char) :
    splitNLAux (xs ++ '\n' :: ys) acc = (acc.reverse ++ xs) :: splitNL ys := by
  induction xs generalizing acc with
  | nil => simp [splitNLAux, splitNL]
  | cons c cs ih =>
    have hc : ¬ c = '\n' := fun hh => h (hh ▸ List.mem_cons_self c cs)
    have hcs : '\n' ∉ cs := fun hm => h (List.mem_cons_of_mem c hm)
    simp [splitNLAux, hc, ih hcs, List.reverse_cons, List.append_assoc]

theorem splitWSAux_head (cs : List Char) (a : Char) (acc : List Char) :
    (splitWSAux cs (a :: acc)).getD 0 [] =
      (a :: acc).reverse ++ cs.takeWhile (fun c => !pyIsSpace c) := by
  induction cs generalizing a acc with
  | nil => simp [splitWSAux]
  | cons c cs ih =>
    cases hc : pyIsSpace c with
    | true =>
      have hstep : splitWSAux (c :: cs) (a :: acc) =
          (a :: acc).reverse :: splitWSAux cs [] := by
        simp [splitWSAux, hc]
      rw [hstep]
      simp [List.takeWhile_cons, hc]
    | false =>
      have hstep : splitWSAux (c :: cs) (a :: acc) = splitWSAux cs (c :: a :: acc) := by
        simp [splitWSAux, hc]
      rw [hstep, ih c (a :: acc)]
      simp [List.takeWhile_cons, hc, List.reverse_cons, List.append_assoc]

theorem splitWS_head (cs : List Char) :
    (splitWS cs).getD 0 [] =
      (cs.dropWhile pyIsSpace).takeWhile (fun c => !pyIsSpace c) := by
  induction cs with
  | nil => simp [splitWS, splitWSAux]
  | cons c cs ih =>
    cases hc : pyIsSpace c with
    | true =>
      have hstep : splitWS (c :: cs) = splitWS cs := by
        simp [splitWS, splitWSAux, hc]
      rw [hstep, ih]
      simp [List.dropWhile_cons, hc]
    | false =>
      have hstep : splitWS (c :: cs) = splitWSAux cs [c] := by
        simp [splitWS, splitWSAux, hc]
      rw [hstep, splitWSAux_head cs c []]
      simp [List.dropWhile_cons, List.takeWhile_cons, hc]

theorem splitWSAux_break (t : List Char) (c : Char) (rest : List Char)
    (ht : ∀ x ∈ t, pyIsSpace x = false) (hc : pyIsSpace c = true) (acc : List Char)
    (hne : acc.reverse ++ t ≠ []) :
    splitWSAux (t ++ c :: rest) acc = (acc.reverse ++ t) :: splitWS rest := by
  induction t generalizing acc with
  | nil =>
    cases acc with
    | nil => exact absurd (by simp) hne
    | cons a as => simp [splitWSAux, hc, splitWS]
  | cons d ds ih =>
    have hd : pyIsSpace d = false := ht d (List.mem_cons_self d ds)
    have hds : ∀ x ∈ ds, pyIsSpace x = false := fun x hx =>
      ht x (List.mem_cons_of_mem d hx)
    have hne2 : (d :: acc).reverse ++ ds ≠ [] := by
      simp [List.reverse_cons, List.append_assoc]
    simpa [splitWSAux, hd, List.reverse_cons, List.append_assoc] using
      ih hds (d :: acc) hne2

/-- C9: when an admin confirms a link, the stored value is the first
whitespace-delimited token of the text echoed after "Link:" on the second line
of the confirmation message; in particular, for a link text that does not start
with whitespace, only the portion before the first whitespace is persisted. -/
theorem link_first_token (link : List Char) (h : '\n' ∉ link) :
    extract_linkL (confirm_textL link) =
      (link.dropWhile pyIsSpace).takeWhile (fun c => !pyIsSpace c) ∧
    (∀ a as, link = a :: as → pyIsSpace a = false →
      extract_linkL (confirm_textL link) =
        link.takeWhile (fun c => !pyIsSpace c)) := by
  have hlit : "<b>Is the link provided correct?</b>\n<b>Link:</b> ".data =
      "<b>Is the link provided correct?</b>".data ++
        '\n' :: ("<b>Link:</b>".data ++ [' ']) := by decide
  have hshape : confirm_textL link =
      "<b>Is the link provided correct?</b>".data ++
        '\n' :: ("<b>Link:</b>".data ++ ' ' :: link) := by
    simp [confirm_textL, hlit, List.append_assoc]
  have hline1 : ('\n' : Char) ∉ "<b>Is the link provided correct?</b>".data := by decide
  have hsplit : splitNL (confirm_textL link) =
      "<b>Is the link provided correct?</b>".data ::
        splitNL ("<b>Link:</b>".data ++ ' ' :: link) := by
    rw [hshape]
    simpa [splitNL] using
      splitNLAux_append "<b>Is the link provided correct?</b>".data
        ("<b>Link:</b>".data ++ ' ' :: link) hline1 []
  have hline2 : ('\n' : Char) ∉ "<b>Link:</b>".data ++ ' ' :: link := by
    intro hm
    rcases List.mem_append.mp hm with hm1 | hm2
    · exact absurd hm1 (by decide)
    · rcases List.mem_cons.mp hm2 with hm3 | hm4
      · exact absurd hm3 (by decide)
      · exact h hm4
  have htok : splitWS ("<b>Link:</b>".data ++ ' ' :: link) =
      "<b>Link:</b>".data :: splitWS link := by
    simpa using
      splitWSAux_break "<b>Link:</b>".data ' ' link (by decide) (by decide) []
        (by decide)
  have hmain : extract_linkL (confirm_textL link) =
      (link.dropWhile pyIsSpace).takeWhile (fun c => !pyIsSpace c) := by
    unfold extract_linkL
    rw [hsplit, splitNL_no_newline _ hline2]
    rw [show ("<b>Is the link provided correct?</b>".data ::
        ["<b>Link:</b>".data ++ ' ' :: link]).getD 1 [] =
        "<b>Link:</b>".data ++ ' ' :: link from rfl]
    rw [htok]
    rw [show ("<b>Link:</b>".data :: splitWS link).getD 1 [] =
        (splitWS link).getD 0 [] from rfl]
    exact splitWS_head link
  refine ⟨hmain, ?_⟩
  rintro a as rfl ha
  rw [hmain, List.dropWhile_cons_of_neg (by simp [ha])]

/-- Witness for `link_first_token`: confirming the echoed text
"http://x/1 fix" stores only "http://x/1". -/
theorem link_first_token_witness :
    extract_linkL (confirm_textL "http://x/1 fix".data) = "http://x/1".data := by
  have h := (link_first_token "http://x/1 fix".data (by decide)).1
  rw [h]
  decide

/-! ### Matrix validation claim -/

theorem rectangularOk_iff (rows : List (List (List Char))) :
    rectangularOk rows = true ↔ ∀ r ∈ rows, ∀ q ∈ rows, r.length = q.length := by
  cases rows with
  | nil => simp [rectangularOk]
  | cons r rs =>
    simp only [rectangularOk, List.all_eq_true, beq_iff_eq]
    constructor
    · intro hall x hx y hy
      have hx2 : x.length = r.length := by
        rcases List.mem_cons.mp hx with rfl | hx3
        · rfl
        · exact hall x hx3
      have hy2 : y.length = r.length := by
        rcases List.mem_cons.mp hy with rfl | hy3
        · rfl
        · exact hall y hy3
      rw [hx2, hy2]
    · intro hp x hx
      exact hp x (List.mem_cons_of_mem r hx) r (List.mem_cons_self r rs)

/-- C8: in the matrix dialogues, a non-numeric entry draws the numeric-input
error, unequal row lengths (with all entries numeric) draw the rectangularity
error, a dimension over MAX_MATRIX draws the limit message, and only otherwise
is the selected matrix action invoked on the parsed rows; every rejection
terminates the dialogue (nothing is invoked or registered). -/
theorem matrix_input_validation (maxMatrix : Nat) (text action : String) :
    ((∃ r ∈ matrixRows text, ∃ tok ∈ r, isFloatTok tok = false) →
      matrix_input maxMatrix text action = ([Out.matrixNumeric], none)) ∧
    ((∀ r ∈ matrixRows text, ∀ tok ∈ r, isFloatTok tok = true) →
      (∃ r ∈ matrixRows text, ∃ q ∈ matrixRows text, r.length ≠ q.length) →
      matrix_input maxMatrix text action = ([Out.matrixRect], none)) ∧
    ((∀ r ∈ matrixRows text, ∀ tok ∈ r, isFloatTok tok = true) →
      (∀ r ∈ matrixRows text, ∀ q ∈ matrixRows text, r.length = q.length) →
      (matrixRows text).length > maxMatrix →
      matrix_input maxMatrix text action = ([Out.matrixLimit maxMatrix], none)) ∧
    ((∀ r ∈ matrixRows text, ∀ tok ∈ r, isFloatTok tok = true) →
      (∀ r ∈ matrixRows text, ∀ q ∈ matrixRows text, r.length = q.length) →
      (matrixRows text).length ≤ maxMatrix →
      matrix_input maxMatrix text action = ([], some (action, matrixRows text))) := by
  refine ⟨?_, ?_, ?_, ?_⟩
  · rintro ⟨r, hr, tok, htok, hbad⟩
    have hall : ¬ (matrixRows text).all (fun r => r.all isFloatTok) = true := by
      simp only [List.all_eq_true]
      push_neg
      exact ⟨r, hr, tok, htok, by simp [hbad]⟩
    rw [matrix_input, if_neg hall]
  · intro hok hbad
    have hall : (matrixRows text).all (fun r => r.all isFloatTok) = true := by
      simp only [List.all_eq_true]
      exact hok
    have hrect : ¬ rectangularOk (matrixRows text) = true := by
      rw [rectangularOk_iff]
      push_neg
      obtain ⟨r, hr, q, hq, hne⟩ := hbad
      exact ⟨r, hr, q, hq, hne⟩
    rw [matrix_input, if_pos hall, if_neg hrect]
  · intro hok hrect hlen
    have hall : (matrixRows text).all (fun r => r.all isFloatTok) = true := by
      simp only [List.all_eq_true]
      exact hok
    rw [matrix_input, if_pos hall, if_pos ((rectangularOk_iff _).mpr hrect),
      if_pos hlen]
  · intro hok hrect hlen
    have hall : (matrixRows text).all (fun r => r.all isFloatTok) = true := by
      simp only [List.all_eq_true]
      exact hok
    rw [matrix_input, if_pos hall, if_pos ((rectangularOk_iff _).mpr hrect),
      if_neg (by omega)]

/-- Witness for `matrix_input_validation`: a non-numeric entry, unequal rows, an
oversized matrix, and an accepted 2x2 matrix. -/
theorem matrix_input_validation_witness :
    matrix_input 5 "1 x\n2 3" "det" = ([Out.matrixNumeric], none) ∧
    matrix_input 5 "1 2\n3" "det" = ([Out.matrixRect], none) ∧
    matrix_input 1 "1 2\n3 4" "det" = ([Out.matrixLimit 1], none) ∧
    matrix_input 5 "1 2\n3 4" "det" = ([], some ("det", matrixRows "1 2\n3 4")) :=
  ⟨(matrix_input_validation 5 "1 x\n2 3" "det").1 (by decide),
   (matrix_input_validation 5 "1 2\n3" "det").2.1 (by decide) (by decide),
   (matrix_input_validation 1 "1 2\n3 4" "det").2.2.1 (by decide) (by decide)
     (by decide),
   (matrix_input_validation 5 "1 2\n3 4" "det").2.2.2 (by decide) (by decide)
     (by decide)⟩

/-! ### Helper lemmas on the report handlers -/

theorem change_status_accept (r : Report) (l : Option String) :
    change_status r "accept_report" l = { status := Status.ACCEPTED, link := l } := rfl

theorem change_status_reject (r : Report) :
    change_status r "reject_report" none = { r with status := Status.REJECTED } := rfl

theorem change_status_close (r : Report) :
    change_status r "close_report" none = { r with status := Status.CLOSED } := rfl

theorem change_report_status_accept (u : Nat) (m : String) (r : Report) :
    change_report_status ⟨u, "accept_report", m⟩ r =
      (r, [Out.provideLink], some (Cont.link_handling 0)) := rfl

theorem change_report_status_reject (u : Nat) (m : String) (r : Report) :
    change_report_status ⟨u, "reject_report", m⟩ r =
      ({ r with status := Status.REJECTED }, [Out.issueRejected], none) := rfl

theorem change_report_status_close (u : Nat) (m : String) (r : Report) :
    change_report_status ⟨u, "close_report", m⟩ r =
      if r.status = Status.ACCEPTED then
        ({ r with status := Status.CLOSED }, [Out.issueClosed], none)
      else (r, [Out.issueNotConfirmed], none) := by
  by_cases h : r.status = Status.ACCEPTED <;>
    simp [change_report_status, change_status, h]

theorem accept_link_confirm (u : Nat) (m : String) (r : Report) :
    accept_link ⟨u, "accept_link 0", m⟩ r =
      ({ status := Status.ACCEPTED, link := some (extract_link m) },
       [Out.issueConfirmed], none) := rfl

theorem accept_link_reject (u : Nat) (m : String) (r : Report) :
    accept_link ⟨u, "reject_link 0", m⟩ r =
      (r, [Out.provideLinkAgain], some (Cont.link_handling 0)) := rfl

/-- Shape of every report mutation a session step can perform: none at all,
an unguarded reject, a close guarded on the ACCEPTED status, or a confirmed
accept that also sets the link. -/
theorem stepSys_report_cases (admins : List Nat) (uid : Nat) (s t : Sys) (e : Event)
    (h : stepSys admins uid s e = some t) :
    t.report = s.report ∨
    (∃ b, e = Event.pressListing b "reject_report" ∧
      t.report = { s.report with status := Status.REJECTED }) ∨
    (∃ b, e = Event.pressListing b "close_report" ∧
      s.report.status = Status.ACCEPTED ∧
      t.report = { s.report with status := Status.CLOSED }) ∨
    (∃ l, e = Event.pressConfirm l ∧
      t.report = { status := Status.ACCEPTED,
                   link := some (extract_link (confirm_text l)) }) := by
  cases e with
  | viewListing b =>
    simp only [stepSys] at h
    by_cases hb : s.report.status = b
    · rw [if_pos hb] at h
      cases Option.some.inj h
      exact Or.inl rfl
    · rw [if_neg hb] at h
      cases Option.some.inj h
      exact Or.inl rfl
  | pressListing b d =>
    simp only [stepSys] at h
    split at h
    · cases Option.some.inj h
      by_cases h1 : d = "accept_report"
      · subst h1
        exact Or.inl (by rw [change_report_status_accept])
      · by_cases h2 : d = "close_report"
        · subst h2
          by_cases hacc : s.report.status = Status.ACCEPTED
          · exact Or.inr (Or.inr (Or.inl ⟨b, rfl, hacc,
              by rw [change_report_status_close, if_pos hacc]⟩))
          · exact Or.inl (by rw [change_report_status_close, if_neg hacc])
        · by_cases h3 : d = "reject_report"
          · subst h3
            exact Or.inr (Or.inl ⟨b, rfl, by rw [change_report_status_reject]⟩)
          · exact Or.inl (by simp [change_report_status, h1, h2, h3])
    · exact Option.noConfusion h
  | sendText t0 =>
    simp only [stepSys] at h
    cases hp : s.pending with
    | none =>
      rw [hp] at h
      cases Option.some.inj h
      exact Or.inl rfl
    | some k =>
      rw [hp] at h
      cases k <;> (cases Option.some.inj h; exact Or.inl rfl)
  | pressConfirm l =>
    simp only [stepSys] at h
    split at h
    · cases Option.some.inj h
      exact Or.inr (Or.inr (Or.inr ⟨l, rfl, by rw [accept_link_confirm]⟩))
    · exact Option.noConfusion h
  | pressReject l =>
    simp only [stepSys] at h
    split at h
    · cases Option.some.inj h
      exact Or.inl (by rw [accept_link_reject])
    · exact Option.noConfusion h

/-! ### Report lifecycle claims -/

/-- C1 counterexample: from a fresh NEW report, the admin accepts it with a
confirmed link (status ACCEPTED) and then presses the Reject button that the
ACCEPTED listing genuinely carries; the status changes ACCEPTED→REJECTED — a
transition outside NEW→ACCEPTED, NEW→REJECTED, ACCEPTED→CLOSED that is not a
no-op. -/
theorem report_transitions_cx :
    ReachableSys admins0 0 sys5 ∧
    stepSys admins0 0 sys5 (Event.pressListing Status.ACCEPTED "reject_report") =
      some sys6 ∧
    sys5.report.status = Status.ACCEPTED ∧
    sys5.report.link = some "http://x/1" ∧
    sys6.report.status = Status.REJECTED ∧
    sys6.report.link = some "http://x/1" :=
  ⟨reach5, by decide, by decide, by decide, by decide, by decide⟩

/-- C1 (amended): every step of the review session either leaves the report
unchanged, or performs one of exactly three mutations — `reject_report` sets
status REJECTED from any status (link unchanged), `close_report` moves
ACCEPTED→CLOSED (link unchanged) and is a no-op from any other status, and a
confirmed link sets status ACCEPTED together with the extracted link from any
status.  In particular CLOSED is reached only from ACCEPTED, but reject and
confirmed-accept are not guarded on the NEW status. -/
theorem report_transitions_amended (admins : List Nat) (uid : Nat) (s t : Sys)
    (e : Event) (h : stepSys admins uid s e = some t) :
    t.report = s.report ∨
    (∃ b, e = Event.pressListing b "reject_report" ∧
      t.report = { s.report with status := Status.REJECTED }) ∨
    (∃ b, e = Event.pressListing b "close_report" ∧
      s.report.status = Status.ACCEPTED ∧
      t.report = { s.report with status := Status.CLOSED }) ∨
    (∃ l, e = Event.pressConfirm l ∧
      t.report = { status := Status.ACCEPTED,
                   link := some (extract_link (confirm_text l)) }) :=
  stepSys_report_cases admins uid s t e h

/-- Witness for `report_transitions_amended`, at the reject step of the
concrete run. -/
theorem report_transitions_amended_witness :
    sys6.report = sys5.report ∨
    (∃ b, Event.pressListing Status.ACCEPTED "reject_report" =
        Event.pressListing b "reject_report" ∧
      sys6.report = { sys5.report with status := Status.REJECTED }) ∨
    (∃ b, Event.pressListing Status.ACCEPTED "reject_report" =
        Event.pressListing b "close_report" ∧
      sys5.report.status = Status.ACCEPTED ∧
      sys6.report = { sys5.report with status := Status.CLOSED }) ∨
    (∃ l, Event.pressListing Status.ACCEPTED "reject_report" = Event.pressConfirm l ∧
      sys6.report = { status := Status.ACCEPTED,
                      link := some (extract_link (confirm_text l)) }) :=
  report_transitions_amended admins0 0 sys5 sys6
    (Event.pressListing Status.ACCEPTED "reject_report") (by decide)

/-- C2 counterexample: the reachable state reached by rejecting an ACCEPTED
report has status REJECTED with its link still set — `link` non-null is not
equivalent to status ACCEPTED/CLOSED. -/
theorem link_invariant_cx :
    ReachableSys admins0 0 sys6 ∧
    sys6.report.status = Status.REJECTED ∧
    sys6.report.link = some "http://x/1" :=
  ⟨reach6, by decide, by decide⟩

/-- C2 (amended): over all reachable session states, a NEW report has no link
and an ACCEPTED or CLOSED report has a link (closing preserves the link set at
acceptance); but a REJECTED report may retain a link when it was rejected after
acceptance, since reject does not clear the link. -/
theorem link_invariant_amended (admins : List Nat) (uid : Nat) (s : Sys)
    (h : ReachableSys admins uid s) :
    (s.report.status = Status.NEW → s.report.link = none) ∧
    (s.report.status = Status.ACCEPTED ∨ s.report.status = Status.CLOSED →
      s.report.link ≠ none) := by
  induction h with
  | init => simp [sysInit]
  | next e hr hstep ih =>
    rcases stepSys_report_cases _ _ _ _ _ hstep with
      hsame | ⟨b, he, hrep⟩ | ⟨b, he, hacc, hrep⟩ | ⟨l, he, hrep⟩
    · rw [hsame]
      exact ih
    · rw [hrep]
      exact ⟨by intro hx; exact absurd hx (by simp), by intro hx; simp at hx⟩
    · rw [hrep]
      refine ⟨by intro hx; exact absurd hx (by simp), fun hx => ?_⟩
      simpa using ih.2 (Or.inl hacc)
    · rw [hrep]
      exact ⟨by intro hx; exact absurd hx (by simp), by simp⟩

/-- Witness for `link_invariant_amended`, at the reachable accepted state of
the concrete run. -/
theorem link_invariant_amended_witness :
    (sys4.report.status = Status.NEW → sys4.report.link = none) ∧
    (sys4.report.status = Status.ACCEPTED ∨ sys4.report.status = Status.CLOSED →
      sys4.report.link ≠ none) :=
  link_invariant_amended admins0 0 sys4 reach4

/-- C3: in the accept sub-flow nothing is committed before explicit
confirmation — pressing accept only prompts and registers `link_handling`,
sending the link only produces the echoed confirmation message, pressing
Reject only re-registers the link prompt, and only pressing Confirm commits
ACCEPTED together with the extracted link. -/
theorem accept_subflow_commit_only_on_confirm (admins : List Nat) (uid : Nat)
    (s : Sys) :
    (∀ b t, stepSys admins uid s (Event.pressListing b "accept_report") = some t →
      t.report = s.report ∧ t.pending = some (Cont.link_handling 0) ∧
      t.confirms = s.confirms ∧ t.sent = Out.provideLink :: s.sent) ∧
    (∀ txt t, s.pending = some (Cont.link_handling 0) →
      stepSys admins uid s (Event.sendText txt) = some t →
      t.report = s.report ∧ t.pending = none ∧ t.confirms = txt :: s.confirms ∧
      t.sent = Out.linkConfirm txt :: s.sent) ∧
    (∀ l t, stepSys admins uid s (Event.pressReject l) = some t →
      t.report = s.report ∧ t.pending = some (Cont.link_handling 0) ∧
      t.confirms = s.confirms ∧ t.sent = Out.provideLinkAgain :: s.sent) ∧
    (∀ l t, stepSys admins uid s (Event.pressConfirm l) = some t →
      t.report = { status := Status.ACCEPTED,
                   link := some (extract_link (confirm_text l)) } ∧
      t.sent = Out.issueConfirmed :: s.sent) := by
  refine ⟨?_, ?_, ?_, ?_⟩
  · intro b t h
    simp only [stepSys] at h
    split at h
    · cases Option.some.inj h
      exact ⟨rfl, rfl, rfl, rfl⟩
    · exact Option.noConfusion h
  · intro txt t hpend h
    simp only [stepSys] at h
    rw [hpend] at h
    cases Option.some.inj h
    exact ⟨rfl, rfl, rfl, rfl⟩
  · intro l t h
    simp only [stepSys] at h
    split at h
    · cases Option.some.inj h
      exact ⟨rfl, rfl, rfl, rfl⟩
    · exact Option.noConfusion h
  · intro l t h
    simp only [stepSys] at h
    split at h
    · cases Option.some.inj h
      exact ⟨rfl, rfl⟩
    · exact Option.noConfusion h

/-- Witness for `accept_subflow_commit_only_on_confirm`, along the concrete
accept run (prompt, echo, confirm). -/
theorem accept_subflow_witness :
    (sys2.report = sys1.report ∧ sys2.pending = some (Cont.link_handling 0) ∧
      sys2.confirms = sys1.confirms ∧ sys2.sent = Out.provideLink :: sys1.sent) ∧
    (sys3.report = sys2.report ∧ sys3.pending = none ∧
      sys3.confirms = "http://x/1" :: sys2.confirms ∧
      sys3.sent = Out.linkConfirm "http://x/1" :: sys2.sent) ∧
    (sys4.report = { status := Status.ACCEPTED,
                     link := some (extract_link (confirm_text "http://x/1")) } ∧
      sys4.sent = Out.issueConfirmed :: sys3.sent) :=
  ⟨(accept_subflow_commit_only_on_confirm admins0 0 sys1).1 Status.NEW sys2
      (by decide),
   (accept_subflow_commit_only_on_confirm admins0 0 sys2).2.1 "http://x/1" sys3
      (by decide) (by decide),
   (accept_subflow_commit_only_on_confirm admins0 0 sys3).2.2.2 "http://x/1" sys4
      (by decide)⟩

/-- C4: pressing close transitions the report ACCEPTED→CLOSED exactly when its
current status is ACCEPTED; from any other status the record is untouched and
the admin is sent the not-yet-confirmed advisory. -/
theorem close_report_guard (admins : List Nat) (uid : Nat) (s t : Sys) (b : Status)
    (h : stepSys admins uid s (Event.pressListing b "close_report") = some t) :
    (s.report.status = Status.ACCEPTED →
      t.report = { s.report with status := Status.CLOSED } ∧
      t.sent = Out.issueClosed :: s.sent) ∧
    (s.report.status ≠ Status.ACCEPTED →
      t.report = s.report ∧ t.pending = s.pending ∧ t.confirms = s.confirms ∧
      t.sent = Out.issueNotConfirmed :: s.sent) := by
  simp only [stepSys] at h
  split at h
  · cases Option.some.inj h
    constructor
    · intro hacc
      constructor <;> simp [change_report_status_close, hacc]
    · intro hacc
      refine ⟨?_, ?_, rfl, ?_⟩ <;> simp [change_report_status_close, hacc]
  · exact Option.noConfusion h

/-- Run state: the admin closes the ACCEPTED report. -/
def sys5c : Sys := step0 sys5 (Event.pressListing Status.ACCEPTED "close_report")

/-- Run state: the admin tries to close the still-NEW report. -/
def sys1c : Sys := step0 sys1 (Event.pressListing Status.NEW "close_report")

/-- Witness for `close_report_guard`: closing the ACCEPTED report commits
CLOSED; closing the NEW report leaves it untouched and draws the advisory. -/
theorem close_report_guard_witness :
    (sys5c.report = { sys5.report with status := Status.CLOSED } ∧
      sys5c.sent = Out.issueClosed :: sys5.sent) ∧
    (sys1c.report = sys1.report ∧ sys1c.pending = sys1.pending ∧
      sys1c.confirms = sys1.confirms ∧
      sys1c.sent = Out.issueNotConfirmed :: sys1.sent) :=
  ⟨(close_report_guard admins0 0 sys5 sys5c Status.ACCEPTED (by decide)).1
      (by decide),
   (close_report_guard admins0 0 sys1 sys1c Status.NEW (by decide)).2
      (by decide)⟩

/-! ### Authorization claim -/

/-- C6 counterexample: a caller outside the configured admin set who invokes the
`reject_report` review action does mutate the report and does receive a reply —
`change_report_status` performs no admin check. -/
theorem admin_gate_cx :
    (2 ∉ admins0) ∧
    (change_report_status ⟨2, "reject_report", "Report id: 0"⟩
        { status := Status.NEW, link := none }).1 =
      { status := Status.REJECTED, link := none } ∧
    (change_report_status ⟨2, "reject_report", "Report id: 0"⟩
        { status := Status.NEW, link := none }).2.1 = [Out.issueRejected] :=
  ⟨by decide, by decide, by decide⟩

/-- C6 (amended): only `broadcast_input` gates on the administrator set,
silently dropping non-admin callers with no reply and nothing registered; the
review and link handlers ignore the caller's identity entirely, and
unauthorized use of the review actions is prevented only by menu construction —
`get_report_menu`, `get_type_report_menu` and `get_admin_menu` offer admin
buttons solely to admin ids. -/
theorem admin_gate_amended (admins : List Nat) (u u2 : Nat) (r : Report) :
    (u ∉ admins → broadcast_input admins u = ([], none)) ∧
    (∀ d m, change_report_status ⟨u, d, m⟩ r = change_report_status ⟨u2, d, m⟩ r) ∧
    (∀ d m, accept_link ⟨u, d, m⟩ r = accept_link ⟨u2, d, m⟩ r) ∧
    (u ∉ admins → get_report_menu admins u = ["report"]) ∧
    (u ∉ admins → get_type_report_menu admins u = []) ∧
    (u ∉ admins → ∀ d, get_admin_menu admins u d = none) := by
  refine ⟨?_, fun d m => rfl, fun d m => rfl, ?_, ?_, ?_⟩
  · intro hu
    simp [broadcast_input, hu]
  · intro hu
    simp [get_report_menu, hu]
  · intro hu
    simp [get_type_report_menu, hu]
  · intro hu d
    simp [get_admin_menu, hu]

/-- Witness for `admin_gate_amended`, with the concrete non-admin caller 2
against the admin set containing only 0. -/
theorem admin_gate_amended_witness :
    broadcast_input admins0 2 = ([], none) ∧
    get_report_menu admins0 2 = ["report"] ∧
    get_type_report_menu admins0 2 = [] ∧
    get_admin_menu admins0 2 "report_status_NEW" = none := by
  have h := admin_gate_amended admins0 2 3 { status := Status.NEW, link := none }
  exact ⟨h.1 (by decide), h.2.2.2.1 (by decide), h.2.2.2.2.1 (by decide),
    h.2.2.2.2.2 (by decide) "report_status_NEW"⟩

end MathBot
